import Mathlib

/-! A verification development for a batch sales ETL pipeline.

The pipeline cleans three raw tabular datasets (customers, products, sales)
and builds a star schema (two dimension tables and one fact table).  Tables
are modelled as Lean lists of records, in file order; the list order plays
the role of the incidental storage order of the execution engine.  Decimal
columns are modelled as rationals, integer columns as Int, nullable columns
as Option, and date columns as Int day numbers (the to_date normalization of
an already date-valued column is the identity in this model).
-/

namespace SalesETL

/-- Characters admitted by the email pattern in the local part:
alphanumeric plus the punctuation class used by the validation regex. -/
def isLocalChar (c : Char) : Bool :=
  c.isAlpha || c.isDigit || c = '.' || c = '_' || c = '%' || c = '+' || c = '-'

/-- Characters admitted by the email pattern in the domain part
before the final dot. -/
def isDomainChar (c : Char) : Bool :=
  c.isAlpha || c.isDigit || c = '.' || c = '-'

/-- The email validation used by the customer cleaner.  The anchored
pattern requires a nonempty local part, one at-sign, and a domain that
ends in a dot followed by at least two letters.  Since neither character
class admits an at-sign, a match is exactly a split into two parts at a
unique at-sign; since the top-level-domain run is all letters, the dot
introducing it is necessarily the last dot of the domain. -/
def validEmail (s : String) : Bool :=
  match s.toList.splitOn '@' with
  | [loc, dom] =>
      let r := dom.reverse
      let tld := r.takeWhile (fun c => !(c = '.'))
      let rest := r.drop (tld.length + 1)
      !loc.isEmpty && loc.all isLocalChar &&
      decide (2 ≤ tld.length) && tld.all (fun c => c.isAlpha) &&
      decide (tld.length < r.length) && !rest.isEmpty && rest.all isDomainChar
  | _ => false

/-- A raw customer row as ingested. -/
structure RawCustomer where
  customer_id : Int
  name : String
  email : Option String
  country : String
  registration_date : Int
  segment : String
  phone : Option String
  city : Option String
deriving DecidableEq

/-- The window-based deduplication idiom of the pipeline: partition the rows
by a key, rank each partition by an ordering column via row_number with the
incidental order (here: list position) breaking ties, and keep only rank one.
List.argmin returns the earliest minimizer, which is exactly the rank-one row
of a partition; rows are paired with their positions so that equal record
values at different positions stay distinct. -/
def rowNumberKeep {α κ β : Type} [DecidableEq α] [DecidableEq κ] [LinearOrder β]
    (key : α → κ) (ord : α → β) (df : List α) : List α :=
  (df.enum.filter (fun p =>
      decide ((df.enum.filter (fun q => decide (key q.2 = key p.2))).argmin
        (fun q => ord q.2) = some p))).map Prod.snd

/-- The rows of the raw customer table that survive the two email filters of
clean_customers: non-null email, then the validation pattern. -/
def emailValidRows (df : List RawCustomer) : List RawCustomer :=
  (df.filter (fun r => r.email.isSome)).filter
    (fun r => match r.email with
      | some e => validEmail e
      | none => false)

/-- The sentinel substitution of clean_customers for null phone and city.
The registration_date normalization of an already date-valued column is the
identity in this model. -/
def fillCustomerDefaults (r : RawCustomer) : RawCustomer :=
  { r with phone := some (r.phone.getD "Unknown"),
           city := some (r.city.getD "Unknown") }

/-- clean_customers: drop null emails, drop invalid emails, keep the row_number
one row per email ordered by customer_id, fill null phone and city, normalize
registration_date. -/
def clean_customers (df : List RawCustomer) : List RawCustomer :=
  (rowNumberKeep (fun r => r.email) (fun r => r.customer_id)
      (emailValidRows df)).map fillCustomerDefaults

/-- A raw product row as ingested. -/
structure RawProduct where
  product_id : Int
  product_name : String
  category : String
  unit_price : ℚ
  supplier : Option String
  stock_quantity : Int
  weight_kg : Option ℚ
  rating : ℚ
deriving DecidableEq

/-- The product rows after the first three steps of clean_products: drop
non-positive prices, clamp negative stock to zero, fill null supplier.
This is the population the per-category weight medians are computed on. -/
def productPop (df : List RawProduct) : List RawProduct :=
  ((df.filter (fun r => decide (0 < r.unit_price))).map
      (fun r => { r with stock_quantity :=
        if r.stock_quantity < 0 then 0 else r.stock_quantity })).map
    (fun r => { r with supplier := some (r.supplier.getD "Unknown") })

/-- The non-null weights of the rows of one category, in row order. -/
def catWeights (pop : List RawProduct) (c : String) : List ℚ :=
  (pop.filter (fun r => r.category = c)).filterMap (fun r => r.weight_kg)

/-- The per-category aggregate clean_products computes: percentile_approx at
0.5.  On a group small enough for the sketch to stay exact (the default
accuracy is 10000), the aggregate returns the element of the group whose rank
is the ceiling of half the group size, that is, the element at zero-based
index (n - 1) / 2 of the sorted values.  It never interpolates between two
data points, and it ignores null inputs (the caller passes only non-null
weights).  An empty group yields null. -/
def approxMedian (xs : List ℚ) : Option ℚ :=
  (List.insertionSort (fun a b => a ≤ b) xs)[(xs.length - 1) / 2]?

/-- The exact median in the sense of the specification text: the middle
element for odd length, the mean of the two middle elements for even length,
null for an empty list. -/
def exactMedian (xs : List ℚ) : Option ℚ :=
  match (List.insertionSort (fun a b => a ≤ b) xs)[(xs.length - 1) / 2]?,
        (List.insertionSort (fun a b => a ≤ b) xs)[xs.length / 2]? with
  | some a, some b => some ((a + b) / 2)
  | _, _ => none

/-- The rating clamp of clean_products: values above five become five, values
below zero become zero. -/
def clampRating (x : ℚ) : ℚ :=
  if x > 5 then 5 else if x < 0 then 0 else x

/-- The weight imputation step of clean_products on one row: a null weight
is replaced by the aggregate value of the category of the row.  The
aggregate table has exactly one row per category occurring in the
population, so the left join back followed by the null test is exactly this
per-row lookup. -/
def imputeRow (pop : List RawProduct) (r : RawProduct) : RawProduct :=
  if r.weight_kg.isNone then
    { r with weight_kg := approxMedian (catWeights pop r.category) }
  else r

/-- The rating clamp step of clean_products on one row. -/
def clampRow (r : RawProduct) : RawProduct :=
  { r with rating := clampRating r.rating }

/-- clean_products: price filter, stock clamp, supplier fill, weight
imputation from the per-category aggregate, rating clamp. -/
def clean_products (df : List RawProduct) : List RawProduct :=
  ((productPop df).map (imputeRow (productPop df))).map clampRow

/-- A raw sale row as ingested. -/
structure RawSale where
  sale_id : Int
  customer_id : Int
  product_id : Int
  date : Option Int
  quantity : Int
  discount_percent : ℚ
  payment_method : String
  status : String
deriving DecidableEq

/-- The discount clamp of clean_sales: cap at one hundred, floor at zero. -/
def clampDiscount (x : ℚ) : ℚ :=
  if x > 100 then 100 else if x < 0 then 0 else x

/-- The sort key the sale deduplication window orders by: the date column,
with null ordered first as the engine does for ascending order. -/
def dateKey (d : Option Int) : WithBot Int :=
  match d with
  | none => ⊥
  | some x => (x : WithBot Int)

/-- The sale rows surviving the null-date filter. -/
def salesNotNullDate (df : List RawSale) : List RawSale :=
  df.filter (fun r => r.date.isSome)

/-- The sale rows surviving the future-date filter: the comparison of the
date column against the current date observed at execution time keeps a row
exactly when its non-null date is at most that observed date (a null
comparison is not true, so a null date would also be dropped here). -/
def salesNotFuture (df : List RawSale) (today : Int) : List RawSale :=
  (salesNotNullDate df).filter
    (fun r => match r.date with
      | some d => decide (d ≤ today)
      | none => false)

/-- The inner equi-join of sale rows against a one-column key table: each
sale row is emitted once per matching key row, left-major. -/
def innerJoinIds (key : RawSale → Int) : List RawSale → List Int → List RawSale
  | [], _ => []
  | r :: rest, ids =>
      (ids.filter (fun i => i = key r)).map (fun _ => r) ++ innerJoinIds key rest ids

/-- The sale rows after every clean_sales step before the final
deduplication: date filters, the two referential joins against the cleaned
dimension key columns, the quantity filter, the discount clamp. -/
def salesPreDedup (df : List RawSale) (validC : List RawCustomer)
    (validP : List RawProduct) (today : Int) : List RawSale :=
  ((innerJoinIds (fun r => r.product_id)
      (innerJoinIds (fun r => r.customer_id) (salesNotFuture df today)
        (validC.map (fun c => c.customer_id)))
      (validP.map (fun p => p.product_id))).filter
    (fun r => decide (0 < r.quantity))).map
    (fun r => { r with discount_percent := clampDiscount r.discount_percent })

/-- clean_sales: the steps of salesPreDedup followed by deduplication by
sale_id keeping the row_number one row of each partition ordered by date.
The clock value the future-date filter compares against is passed in as
today; in the program it is the current date read inside the function. -/
def clean_sales (df : List RawSale) (validC : List RawCustomer)
    (validP : List RawProduct) (today : Int) : List RawSale :=
  rowNumberKeep (fun r => r.sale_id) (fun r => dateKey r.date)
    (salesPreDedup df validC validP today)

/-- The customer dimension projection of create_star_schema. -/
structure DimCustomer where
  customer_id : Int
  name : String
  email : Option String
  country : String
  registration_date : Int
  segment : String
  city : Option String
deriving DecidableEq

/-- The product dimension projection of create_star_schema. -/
structure DimProduct where
  product_id : Int
  product_name : String
  category : String
  unit_price : ℚ
  supplier : Option String
  rating : ℚ
deriving DecidableEq

/-- A row of the fact table.  unit_price and the derived metrics are
nullable because the join bringing in unit_price is a left join. -/
structure FactSale where
  sale_id : Int
  customer_id : Int
  product_id : Int
  sale_date : Option Int
  quantity : Int
  unit_price : Option ℚ
  discount_percent : ℚ
  amount_before_discount : Option ℚ
  discount_amount : Option ℚ
  total_amount : Option ℚ
  payment_method : String
  status : String
deriving DecidableEq

/-- Null-propagating multiplication, the engine semantics of the product of
two nullable columns. -/
def optMul (a b : Option ℚ) : Option ℚ :=
  a.bind (fun x => b.map (fun y => x * y))

/-- Null-propagating subtraction. -/
def optSub (a b : Option ℚ) : Option ℚ :=
  a.bind (fun x => b.map (fun y => x - y))

/-- The left join of the sale rows against the two projected columns
product_id and unit_price of the product table: a sale row with no matching
product is emitted once with a null unit_price, otherwise once per matching
product row with that unit_price, left-major. -/
def leftJoinUnitPrice : List RawSale → List RawProduct → List (RawSale × Option ℚ)
  | [], _ => []
  | s :: rest, prods =>
      (if (prods.filter (fun p => p.product_id = s.product_id)).isEmpty then
        [(s, none)]
      else
        (prods.filter (fun p => p.product_id = s.product_id)).map
          (fun p => (s, some p.unit_price))) ++ leftJoinUnitPrice rest prods

/-- The inner join variant of the same join, used only to state that the
precondition on the cleaned inputs makes the two joins interchangeable. -/
def innerJoinUnitPrice : List RawSale → List RawProduct → List (RawSale × ℚ)
  | [], _ => []
  | s :: rest, prods =>
      (prods.filter (fun p => p.product_id = s.product_id)).map
        (fun p => (s, p.unit_price)) ++ innerJoinUnitPrice rest prods

/-- The per-row metric computation and final projection of the fact table:
amount_before_discount is quantity times unit_price, discount_amount is
amount_before_discount times discount_percent over one hundred, total_amount
is their difference; date is renamed sale_date. -/
def mkFact (s : RawSale) (up : Option ℚ) : FactSale :=
  let abd := optMul (some ((s.quantity : ℚ))) up
  let da := optMul abd (some (s.discount_percent / 100))
  { sale_id := s.sale_id
    customer_id := s.customer_id
    product_id := s.product_id
    sale_date := s.date
    quantity := s.quantity
    unit_price := up
    discount_percent := s.discount_percent
    amount_before_discount := abd
    discount_amount := da
    total_amount := optSub abd da
    payment_method := s.payment_method
    status := s.status }

/-- The fact table built by create_star_schema from the cleaned sales and
the cleaned products. -/
def factSales (sales : List RawSale) (prods : List RawProduct) : List FactSale :=
  (leftJoinUnitPrice sales prods).map (fun x => mkFact x.1 x.2)

/-- The customer dimension rows of create_star_schema. -/
def dimCustomerRows (customers : List RawCustomer) : List DimCustomer :=
  customers.map (fun r =>
    { customer_id := r.customer_id, name := r.name, email := r.email,
      country := r.country, registration_date := r.registration_date,
      segment := r.segment, city := r.city })

/-- The product dimension rows of create_star_schema. -/
def dimProductRows (products : List RawProduct) : List DimProduct :=
  products.map (fun r =>
    { product_id := r.product_id, product_name := r.product_name,
      category := r.category, unit_price := r.unit_price,
      supplier := r.supplier, rating := r.rating })

/-- create_star_schema: the fact table and the two dimension projections,
in the return order of the program. -/
def create_star_schema (customers : List RawCustomer) (products : List RawProduct)
    (sales : List RawSale) : List FactSale × List DimCustomer × List DimProduct :=
  (factSales sales products, dimCustomerRows customers, dimProductRows products)

/-- The transformation phase of main: clean the three raw tables in
dependency order and build the star schema.  The clock value observed by
the future-date filter is passed in as today. -/
def runPipeline (rawC : List RawCustomer) (rawP : List RawProduct)
    (rawS : List RawSale) (today : Int) :
    List FactSale × List DimCustomer × List DimProduct :=
  let cc := clean_customers rawC
  let pc := clean_products rawP
  let sc := clean_sales rawS cc pc today
  create_star_schema cc pc sc

/-- The state of the output sink: which of the three output tables have been
committed, and with what contents. -/
structure Sink where
  dimCustomerOut : Option (List DimCustomer)
  dimProductOut : Option (List DimProduct)
  factSalesOut : Option (List FactSale)
deriving DecidableEq

/-- The sink before any write. -/
def emptySink : Sink := ⟨none, none, none⟩

/-- The save phase of main: three sequential overwrite writes, dim_customer
first, then dim_product, then fact_sales, each committed to its own output
location as soon as it completes.  fails says which writes raise; the first
raising write aborts the run (nothing catches the exception and there is no
rollback), so the writes already completed stay committed.  The Bool result
says whether the run reached the end. -/
def saveOutputs (dimC : List DimCustomer) (dimP : List DimProduct)
    (fact : List FactSale) (fails : Fin 3 → Bool) : Sink × Bool :=
  if fails 0 then (emptySink, false)
  else if fails 1 then ({ emptySink with dimCustomerOut := some dimC }, false)
  else if fails 2 then
    ({ dimCustomerOut := some dimC, dimProductOut := some dimP,
       factSalesOut := none }, false)
  else
    ({ dimCustomerOut := some dimC, dimProductOut := some dimP,
       factSalesOut := some fact }, true)

/-- main end to end, as observed at the sink: the three raw tables are read
before any output is written, so a structural load failure (missing file or
schema mismatch) aborts with the sink untouched; otherwise the pipeline
outputs are written by saveOutputs. -/
def runMain (loadOk : Bool) (rawC : List RawCustomer) (rawP : List RawProduct)
    (rawS : List RawSale) (today : Int) (fails : Fin 3 → Bool) : Sink × Bool :=
  if loadOk then
    let out := runPipeline rawC rawP rawS today
    saveOutputs out.2.1 out.2.2 out.1 fails
  else (emptySink, false)

/-! Concrete rows used by the witness and counterexample theorems. -/

/-- A raw customer with the larger of two duplicate-email ids. -/
def custNine : RawCustomer :=
  { customer_id := 9, name := "Ana", email := some "a@x.com", country := "Spain",
    registration_date := 100, segment := "Premium", phone := none, city := none }

/-- A raw customer with the smaller of two duplicate-email ids. -/
def custFive : RawCustomer :=
  { customer_id := 5, name := "Bea", email := some "a@x.com", country := "Spain",
    registration_date := 101, segment := "Basic", phone := some "555",
    city := some "Madrid" }

/-- A raw customer with id seven and one valid email. -/
def custSevenA : RawCustomer :=
  { customer_id := 7, name := "Cai", email := some "a@x.com", country := "Peru",
    registration_date := 102, segment := "Standard", phone := some "1",
    city := some "Lima" }

/-- A second raw customer with the same id seven and a different valid
email. -/
def custSevenB : RawCustomer :=
  { customer_id := 7, name := "Dan", email := some "b@y.com", country := "Peru",
    registration_date := 103, segment := "Standard", phone := some "2",
    city := some "Lima" }

/-- A product of category Home with weight one. -/
def prodHomeOne : RawProduct :=
  { product_id := 101, product_name := "Lamp", category := "Home",
    unit_price := 10, supplier := some "S", stock_quantity := 5,
    weight_kg := some 1, rating := 4 }

/-- A product of category Home with weight two. -/
def prodHomeTwo : RawProduct :=
  { product_id := 102, product_name := "Chair", category := "Home",
    unit_price := 20, supplier := some "S", stock_quantity := 3,
    weight_kg := some 2, rating := 4 }

/-- A product of category Home with a null weight. -/
def prodHomeNull : RawProduct :=
  { product_id := 103, product_name := "Desk", category := "Home",
    unit_price := 30, supplier := some "S", stock_quantity := 2,
    weight_kg := none, rating := 5 }

/-- A product of category Books with a null weight, the only row of its
category. -/
def prodBooksNull : RawProduct :=
  { product_id := 104, product_name := "Cookbook", category := "Books",
    unit_price := 15, supplier := some "S", stock_quantity := 9,
    weight_kg := none, rating := 5 }

/-- The one-customer dimension environment of the sale examples. -/
def oneCust : List RawCustomer :=
  [{ customer_id := 1, name := "Eva", email := some "c@z.com",
     country := "Chile", registration_date := 50, segment := "Basic",
     phone := some "9", city := some "Santiago" }]

/-- The one-product dimension environment of the sale examples. -/
def oneProd : List RawProduct :=
  [{ product_id := 101, product_name := "Lamp", category := "Home",
     unit_price := 10, supplier := some "S", stock_quantity := 5,
     weight_kg := some 1, rating := 4 }]

/-- A sale with quantity two; same sale_id and date as saleQtyThree. -/
def saleQtyTwo : RawSale :=
  { sale_id := 1, customer_id := 1, product_id := 101, date := some 5,
    quantity := 2, discount_percent := 10, payment_method := "Cash",
    status := "Completed" }

/-- A sale with quantity three; same sale_id and date as saleQtyTwo. -/
def saleQtyThree : RawSale :=
  { sale_id := 1, customer_id := 1, product_id := 101, date := some 5,
    quantity := 3, discount_percent := 10, payment_method := "Cash",
    status := "Completed" }

/-- A sale dated day ten, used to show the output of clean_sales moves with
the observed clock value. -/
def saleDayTen : RawSale :=
  { sale_id := 2, customer_id := 1, product_id := 101, date := some 10,
    quantity := 1, discount_percent := 0, payment_method := "Cash",
    status := "Completed" }

/-- The fact row of the one-sale one-product witness input. -/
def factW : FactSale := mkFact saleQtyTwo (some 10)

theorem enumFrom_map_snd {α : Type} (n : Nat) (l : List α) :
    (l.enumFrom n).map Prod.snd = l := by
  induction l generalizing n with
  | nil => rfl
  | cons a as ih => simp [List.enumFrom, ih]

theorem enum_map_snd {α : Type} (l : List α) : l.enum.map Prod.snd = l :=
  enumFrom_map_snd 0 l

theorem exists_enum_entry {α : Type} {l : List α} {a : α} (h : a ∈ l) :
    ∃ p ∈ l.enum, p.2 = a := by
  have h2 : a ∈ l.enum.map Prod.snd := by rw [enum_map_snd]; exact h
  rcases List.mem_map.1 h2 with ⟨p, hp, hpa⟩
  exact ⟨p, hp, hpa⟩

section RowNumberKeep

variable {α κ β : Type} [DecidableEq α] [DecidableEq κ] [LinearOrder β]
variable {key : α → κ} {ord : α → β} {df : List α}

theorem rowNumberKeep_sublist (key : α → κ) (ord : α → β) (df : List α) :
    List.Sublist (rowNumberKeep key ord df) df := by
  have h1 : List.Sublist (df.enum.filter (fun p =>
      decide ((df.enum.filter (fun q => decide (key q.2 = key p.2))).argmin
        (fun q => ord q.2) = some p))) df.enum := List.filter_sublist _
  have h2 := h1.map Prod.snd
  rw [enum_map_snd] at h2
  exact h2

theorem rowNumberKeep_subset (key : α → κ) (ord : α → β) (df : List α) :
    ∀ r ∈ rowNumberKeep key ord df, r ∈ df :=
  fun _ hr => (rowNumberKeep_sublist key ord df).subset hr

theorem mem_rowNumberKeep_iff {r : α} :
    r ∈ rowNumberKeep key ord df ↔
      ∃ p ∈ df.enum, p.2 = r ∧
        (df.enum.filter (fun q => decide (key q.2 = key p.2))).argmin
          (fun q => ord q.2) = some p := by
  unfold rowNumberKeep
  constructor
  · intro h
    rcases List.mem_map.1 h with ⟨p, hp, hpr⟩
    rcases List.mem_filter.1 hp with ⟨hpe, hcond⟩
    exact ⟨p, hpe, hpr, of_decide_eq_true hcond⟩
  · rintro ⟨p, hpe, hpr, hcond⟩
    exact List.mem_map.2 ⟨p, List.mem_filter.2 ⟨hpe, decide_eq_true hcond⟩, hpr⟩

theorem rowNumberKeep_min {r : α} (hr : r ∈ rowNumberKeep key ord df) :
    ∀ s ∈ df, key s = key r → ord r ≤ ord s := by
  intro s hs hks
  rcases mem_rowNumberKeep_iff.1 hr with ⟨p, hpe, hpr, hcond⟩
  rcases exists_enum_entry hs with ⟨q, hqe, hqs⟩
  have hqpart : q ∈ df.enum.filter (fun q => decide (key q.2 = key p.2)) := by
    refine List.mem_filter.2 ⟨hqe, decide_eq_true ?_⟩
    rw [hqs, hpr, hks]
  have := List.le_of_mem_argmin hqpart hcond
  rw [hpr] at this
  rw [hqs] at this
  exact this

theorem rowNumberKeep_exists {s : α} (hs : s ∈ df) :
    ∃ r ∈ rowNumberKeep key ord df, key r = key s := by
  rcases exists_enum_entry hs with ⟨q, hqe, hqs⟩
  have hqpart : q ∈ df.enum.filter (fun x => decide (key x.2 = key q.2)) :=
    List.mem_filter.2 ⟨hqe, decide_eq_true rfl⟩
  have hne : df.enum.filter (fun x => decide (key x.2 = key q.2)) ≠ [] :=
    List.ne_nil_of_mem hqpart
  cases hm : (df.enum.filter (fun x => decide (key x.2 = key q.2))).argmin
      (fun x => ord x.2) with
  | none => exact absurd (List.argmin_eq_none.1 hm) hne
  | some m =>
  have hmmem : m ∈ (df.enum.filter (fun x => decide (key x.2 = key q.2))).argmin
      (fun x => ord x.2) := Option.mem_def.mpr hm
  have hmpart := List.argmin_mem hmmem
  rcases List.mem_filter.1 hmpart with ⟨hme, hmk⟩
  have hmkey : key m.2 = key q.2 := of_decide_eq_true hmk
  refine ⟨m.2, mem_rowNumberKeep_iff.2 ⟨m, hme, rfl, ?_⟩, by rw [hmkey, hqs]⟩
  have hsame : df.enum.filter (fun x => decide (key x.2 = key m.2)) =
      df.enum.filter (fun x => decide (key x.2 = key q.2)) := by
    apply List.filter_congr
    intro x _
    rw [hmkey]
  rw [hsame]
  exact hm

theorem rowNumberKeep_keys_nodup (key : α → κ) (ord : α → β) (df : List α) :
    ((rowNumberKeep key ord df).map key).Nodup := by
  unfold rowNumberKeep
  rw [List.map_map]
  have henum : df.enum.Nodup :=
    List.Nodup.of_map Prod.fst (List.nodup_enum_map_fst df)
  have hfilt := henum.filter (fun p =>
      decide ((df.enum.filter (fun q => decide (key q.2 = key p.2))).argmin
        (fun q => ord q.2) = some p))
  rw [List.nodup_map_iff_inj_on hfilt]
  intro p hp q hq hkeq
  rcases List.mem_filter.1 hp with ⟨_, hpc⟩
  rcases List.mem_filter.1 hq with ⟨_, hqc⟩
  have hpc' := of_decide_eq_true hpc
  have hqc' := of_decide_eq_true hqc
  have hsame : df.enum.filter (fun x => decide (key x.2 = key q.2)) =
      df.enum.filter (fun x => decide (key x.2 = key p.2)) := by
    apply List.filter_congr
    intro x _
    simp only [Function.comp] at hkeq
    rw [hkeq]
  rw [hsame] at hqc'
  exact Option.some_inj.1 (hpc'.symm.trans hqc')

end RowNumberKeep

/-! Helper lemmas shared between claim theorems. -/

theorem fillCustomerDefaults_email (r : RawCustomer) :
    (fillCustomerDefaults r).email = r.email := rfl

theorem fillCustomerDefaults_customer_id (r : RawCustomer) :
    (fillCustomerDefaults r).customer_id = r.customer_id := rfl

theorem clean_customers_email_nodup (df : List RawCustomer) :
    ((clean_customers df).map (fun r => r.email)).Nodup := by
  unfold clean_customers
  rw [List.map_map]
  have hfn : ((fun r : RawCustomer => r.email) ∘ fillCustomerDefaults)
      = fun r : RawCustomer => r.email := funext fun r => rfl
  rw [hfn]
  exact rowNumberKeep_keys_nodup (fun r => r.email) (fun r => r.customer_id)
    (emailValidRows df)

theorem emailValidRows_sublist (df : List RawCustomer) :
    List.Sublist (emailValidRows df) df :=
  (List.filter_sublist _).trans (List.filter_sublist _)

/-- C3: after the email filters, exactly one row per email survives the
deduplication, and it carries the smallest customer_id of its email group:
the surviving emails are pairwise distinct, every survivor has a
customer_id at most that of any filtered row with the same email, and every
email of a filtered row is still represented. -/
theorem clean_customers_dedup_smallest_id (df : List RawCustomer) :
    ((clean_customers df).map (fun r => r.email)).Nodup
    ∧ (∀ r ∈ clean_customers df, ∀ s ∈ emailValidRows df,
        s.email = r.email → r.customer_id ≤ s.customer_id)
    ∧ (∀ s ∈ emailValidRows df, ∃ r ∈ clean_customers df, r.email = s.email) := by
  refine ⟨clean_customers_email_nodup df, ?_, ?_⟩
  · intro r hr s hs hse
    rcases List.mem_map.1 hr with ⟨r0, hr0, rfl⟩
    have hmin := rowNumberKeep_min hr0 s hs
    rw [fillCustomerDefaults_customer_id]
    exact hmin hse
  · intro s hs
    have hex : ∃ r0 ∈ rowNumberKeep (fun r : RawCustomer => r.email)
        (fun r : RawCustomer => r.customer_id) (emailValidRows df),
          r0.email = s.email := rowNumberKeep_exists hs
    rcases hex with ⟨r0, hr0, hkey⟩
    refine ⟨fillCustomerDefaults r0, List.mem_map.2 ⟨r0, hr0, rfl⟩, ?_⟩
    rw [fillCustomerDefaults_email]
    exact hkey

/-- Witness for C3 at the input of the specification scenario: ids nine and
five share an email and the survivor is the id-five row. -/
theorem clean_customers_dedup_smallest_id_witness :
    (fillCustomerDefaults custFive).customer_id ≤ custNine.customer_id :=
  (clean_customers_dedup_smallest_id [custNine, custFive]).2.1
    (fillCustomerDefaults custFive) (by decide) custNine (by decide) (by decide)

/-- C5 counterexample: two raw rows with the same customer_id seven but
different valid emails both survive clean_customers, so the output
customer_id column is not duplicate-free. -/
theorem dim_customer_id_not_unique_counterexample :
    ¬ ((clean_customers [custSevenA, custSevenB]).map
        (fun r => r.customer_id)).Nodup
    ∧ (clean_customers [custSevenA, custSevenB]).length = 2 := by
  constructor
  · decide
  · decide

/-- C5 amended: the output emails are always pairwise distinct, and the
output customer_ids are pairwise distinct whenever the raw customer_ids
already were; with repeated raw customer_ids under different valid emails the
id uniqueness can fail (the cleaner deduplicates by email only). -/
theorem dim_customer_key_uniqueness (df : List RawCustomer)
    (h : (df.map (fun r => r.customer_id)).Nodup) :
    ((clean_customers df).map (fun r => r.email)).Nodup
    ∧ ((clean_customers df).map (fun r => r.customer_id)).Nodup := by
  refine ⟨clean_customers_email_nodup df, ?_⟩
  have hmap : (clean_customers df).map (fun r => r.customer_id)
      = (rowNumberKeep (fun r => r.email) (fun r => r.customer_id)
          (emailValidRows df)).map (fun r => r.customer_id) := by
    unfold clean_customers
    rw [List.map_map]
    rfl
  rw [hmap]
  have hsub : List.Sublist
      ((rowNumberKeep (fun r => r.email) (fun r => r.customer_id)
          (emailValidRows df)).map (fun r => r.customer_id))
      (df.map (fun r => r.customer_id)) :=
    List.Sublist.map _
      ((rowNumberKeep_sublist _ _ _).trans (emailValidRows_sublist df))
  exact h.sublist hsub

/-- Witness for C5 as amended: on a duplicate-free raw id column both key
columns of the output dimension are duplicate-free. -/
theorem dim_customer_key_uniqueness_witness :
    ((clean_customers [custNine, custFive]).map (fun r => r.email)).Nodup
    ∧ ((clean_customers [custNine, custFive]).map (fun r => r.customer_id)).Nodup :=
  dim_customer_key_uniqueness [custNine, custFive] (by decide)

theorem clampRow_weight (r : RawProduct) : (clampRow r).weight_kg = r.weight_kg := rfl

theorem clampRow_category (r : RawProduct) : (clampRow r).category = r.category := rfl

theorem imputeRow_category (pop : List RawProduct) (r : RawProduct) :
    (imputeRow pop r).category = r.category := by
  unfold imputeRow
  split
  · rfl
  · rfl

theorem imputeRow_weight_some {pop : List RawProduct} {r : RawProduct} {w : ℚ}
    (h : r.weight_kg = some w) : (imputeRow pop r).weight_kg = some w := by
  unfold imputeRow
  rw [h]
  show r.weight_kg = some w
  exact h

theorem imputeRow_weight_none {pop : List RawProduct} {r : RawProduct}
    (h : r.weight_kg = none) :
    (imputeRow pop r).weight_kg = approxMedian (catWeights pop r.category) := by
  unfold imputeRow
  rw [h]
  rfl

theorem approxMedian_eq_none_iff (xs : List ℚ) : approxMedian xs = none ↔ xs = [] := by
  unfold approxMedian
  rw [List.getElem?_eq_none_iff, List.length_insertionSort]
  constructor
  · intro h
    have : xs.length = 0 := by omega
    exact List.length_eq_zero.1 this
  · rintro rfl
    simp

/-- C2 counterexample: for a category whose non-null weights are one and two,
the program imputes weight one into the null row (the percentile aggregate
selects an existing value), while the exact median the claim prescribes is
three halves. -/
theorem clean_products_median_not_interpolated :
    (clean_products [prodHomeOne, prodHomeTwo, prodHomeNull]).map
        (fun r => r.weight_kg) = [some 1, some 2, some 1]
    ∧ exactMedian (catWeights
        (productPop [prodHomeOne, prodHomeTwo, prodHomeNull]) "Home") = some (3 / 2)
    ∧ (some (1 : ℚ) : Option ℚ) ≠ some (3 / 2 : ℚ) := by
  refine ⟨by decide, ?_, by norm_num⟩
  have h : catWeights (productPop [prodHomeOne, prodHomeTwo, prodHomeNull]) "Home"
      = [1, 2] := by decide
  rw [h]
  norm_num [exactMedian, List.insertionSort, List.orderedInsert]

/-- C2 amended: per category, the value imputed into null weights is the one
computed by the percentile aggregate of the program, the element at zero
based index (n - 1) / 2 of the sorted non-null weights of the category in
the price- and stock-cleaned population (for weights one and two this is
one, not the interpolated three halves); rows of a category with no
non-null weight keep a null weight. -/
theorem clean_products_weight_imputation (df : List RawProduct) :
    ((clean_products df).map (fun r => r.weight_kg)
      = (productPop df).map (fun r =>
          if r.weight_kg.isNone then
            approxMedian (catWeights (productPop df) r.category)
          else r.weight_kg))
    ∧ (∀ r ∈ clean_products df, r.weight_kg = none →
        ∃ s ∈ productPop df, s.category = r.category
          ∧ catWeights (productPop df) r.category = []) := by
  constructor
  · unfold clean_products
    rw [List.map_map, List.map_map]
    congr 1
    funext r
    show (clampRow (imputeRow (productPop df) r)).weight_kg = _
    rw [clampRow_weight]
    unfold imputeRow
    by_cases h : r.weight_kg.isNone = true
    · rw [if_pos h, if_pos h]
    · rw [if_neg h, if_neg h]
  · intro r hr hnone
    unfold clean_products at hr
    rcases List.mem_map.1 hr with ⟨y, hy, rfl⟩
    rcases List.mem_map.1 hy with ⟨s, hsmem, rfl⟩
    rw [clampRow_weight] at hnone
    refine ⟨s, hsmem, by rw [clampRow_category, imputeRow_category], ?_⟩
    rw [clampRow_category, imputeRow_category]
    cases hw : s.weight_kg with
    | some w =>
      rw [imputeRow_weight_some hw] at hnone
      cases hnone
    | none =>
      rw [imputeRow_weight_none hw] at hnone
      exact (approxMedian_eq_none_iff _).1 hnone

/-- Witness for C2 as amended, at a one-row category with a null weight:
the weight stays null and the category weight list is empty. -/
theorem clean_products_weight_imputation_witness :
    ∃ s ∈ productPop [prodBooksNull], s.category = prodBooksNull.category
      ∧ catWeights (productPop [prodBooksNull]) prodBooksNull.category = [] :=
  (clean_products_weight_imputation [prodBooksNull]).2 prodBooksNull
    (by decide) (by decide)

theorem mem_innerJoinIds {key : RawSale → Int} {ids : List Int} :
    ∀ {xs : List RawSale} {r : RawSale}, r ∈ innerJoinIds key xs ids → r ∈ xs := by
  intro xs
  induction xs with
  | nil => intro r h; cases h
  | cons a rest ih =>
    intro r h
    rcases List.mem_append.1 h with h1 | h2
    · rcases List.mem_map.1 h1 with ⟨i, _, rfl⟩
      exact List.mem_cons_self a rest
    · exact List.mem_cons_of_mem a (ih h2)

/-- C4 amended: among the rows that passed the null-date filter, the
future-date filter keeps a row exactly when its date is at most the current
date observed from the clock during execution; the clean_sales output is a
function of the input tables and that observed date only, but the date is
read inside the stage, so runs on different days can differ (see the
counterexample theorem). -/
theorem clean_sales_future_filter_clock (df : List RawSale) (today : Int) :
    ∀ r ∈ salesNotNullDate df,
      (r ∈ salesNotFuture df today ↔ ∃ d, r.date = some d ∧ d ≤ today) := by
  intro r hr
  unfold salesNotFuture
  rw [List.mem_filter]
  constructor
  · rintro ⟨_, hc⟩
    cases hd : r.date with
    | none =>
      rw [hd] at hc
      cases hc
    | some d =>
      rw [hd] at hc
      exact ⟨d, rfl, of_decide_eq_true hc⟩
  · rintro ⟨d, hd, hle⟩
    refine ⟨hr, ?_⟩
    rw [hd]
    exact decide_eq_true hle

/-- Witness for C4 as amended, at a concrete one-row input and observed
date ten. -/
theorem clean_sales_future_filter_clock_witness :
    saleDayTen ∈ salesNotFuture [saleDayTen] 10
      ↔ ∃ d, saleDayTen.date = some d ∧ d ≤ 10 :=
  clean_sales_future_filter_clock [saleDayTen] 10 saleDayTen (by decide)

/-- C4 counterexample: the same input cleaned under two different observed
clock dates gives two different outputs, so the output of clean_sales is not
independent of when it executes; the processing date is not an injected
parameter of the stage in the program but the wall clock read inside it. -/
theorem clean_sales_output_depends_on_clock :
    clean_sales [saleDayTen] oneCust oneProd 10
        ≠ clean_sales [saleDayTen] oneCust oneProd 9
    ∧ (10 : Int) ≠ 9 := by
  constructor
  · decide
  · decide

/-- C6 amended: exactly one row survives per sale_id (output sale_ids are
pairwise distinct and every pre-deduplication sale_id is still represented)
and each survivor has the minimum date of its sale_id group; among rows
tying on that minimum date the survivor is the first in the incidental row
order, so it is a function of the input list but not of the input multiset
alone (see the counterexample theorem). -/
theorem clean_sales_dedup_earliest_date (df : List RawSale)
    (validC : List RawCustomer) (validP : List RawProduct) (today : Int) :
    ((clean_sales df validC validP today).map (fun r => r.sale_id)).Nodup
    ∧ (∀ r ∈ clean_sales df validC validP today,
        ∀ s ∈ salesPreDedup df validC validP today,
          s.sale_id = r.sale_id → dateKey r.date ≤ dateKey s.date)
    ∧ (∀ s ∈ salesPreDedup df validC validP today,
        ∃ r ∈ clean_sales df validC validP today, r.sale_id = s.sale_id) := by
  refine ⟨?_, ?_, ?_⟩
  · exact rowNumberKeep_keys_nodup _ _ _
  · intro r hr s hs hkey
    exact rowNumberKeep_min hr s hs hkey
  · intro s hs
    exact rowNumberKeep_exists hs

/-- Witness for C6 as amended: with two rows sharing sale_id and date, the
survivor has a date at most the date of the other row. -/
theorem clean_sales_dedup_earliest_date_witness :
    dateKey saleQtyTwo.date ≤ dateKey saleQtyThree.date :=
  (clean_sales_dedup_earliest_date [saleQtyTwo, saleQtyThree]
      oneCust oneProd 10).2.1 saleQtyTwo (by decide) saleQtyThree
    (by decide) (by decide)

/-- C6 counterexample: two inputs equal as multisets but listed in opposite
incidental order give different clean_sales outputs when two rows tie on
sale_id and date, so the survivor is not a function of the input data alone
and no explicit secondary key makes the tie deterministic. -/
theorem clean_sales_dedup_tie_order_dependent :
    (([saleQtyTwo, saleQtyThree] : List RawSale) : Multiset RawSale)
        = (([saleQtyThree, saleQtyTwo] : List RawSale) : Multiset RawSale)
    ∧ clean_sales [saleQtyTwo, saleQtyThree] oneCust oneProd 10
        ≠ clean_sales [saleQtyThree, saleQtyTwo] oneCust oneProd 10 := by
  constructor
  · exact Multiset.coe_eq_coe.mpr (List.Perm.swap _ _ _)
  · decide

/-- C10: every output row of clean_sales descends from a raw input row with
the same sale_id, customer_id, product_id, quantity, payment_method and
status; the date is carried over (parsing an already date-valued column is
the identity) and the discount is the clamp of the raw discount; and no row
is synthesized: the output is never longer than the input. -/
theorem clean_sales_frame (df : List RawSale) (validC : List RawCustomer)
    (validP : List RawProduct) (today : Int) :
    (∀ r ∈ clean_sales df validC validP today, ∃ s ∈ df,
        r.sale_id = s.sale_id ∧ r.customer_id = s.customer_id
        ∧ r.product_id = s.product_id ∧ r.quantity = s.quantity
        ∧ r.payment_method = s.payment_method ∧ r.status = s.status
        ∧ r.date = s.date
        ∧ r.discount_percent = clampDiscount s.discount_percent)
    ∧ (clean_sales df validC validP today).length ≤ df.length := by
  have hmem : ∀ r ∈ clean_sales df validC validP today, ∃ s ∈ df,
      r.sale_id = s.sale_id ∧ r.customer_id = s.customer_id
      ∧ r.product_id = s.product_id ∧ r.quantity = s.quantity
      ∧ r.payment_method = s.payment_method ∧ r.status = s.status
      ∧ r.date = s.date
      ∧ r.discount_percent = clampDiscount s.discount_percent := by
    intro r hr
    have hpre : r ∈ salesPreDedup df validC validP today :=
      rowNumberKeep_subset _ _ _ r hr
    unfold salesPreDedup at hpre
    rcases List.mem_map.1 hpre with ⟨t, ht, rfl⟩
    have ht2 := (List.mem_filter.1 ht).1
    have ht3 := mem_innerJoinIds ht2
    have ht4 := mem_innerJoinIds ht3
    have ht5 := (List.mem_filter.1 ht4).1
    have ht6 := (List.mem_filter.1 ht5).1
    exact ⟨t, ht6, rfl, rfl, rfl, rfl, rfl, rfl, rfl, rfl⟩
  refine ⟨hmem, ?_⟩
  have hnodup : ((clean_sales df validC validP today).map
      (fun r => r.sale_id)).Nodup := rowNumberKeep_keys_nodup _ _ _
  have hsubset : ((clean_sales df validC validP today).map
        (fun r => r.sale_id) : List Int)
      ⊆ df.map (fun r => r.sale_id) := by
    intro k hk
    rcases List.mem_map.1 hk with ⟨r, hr, rfl⟩
    rcases hmem r hr with ⟨s, hs, hid, _⟩
    rw [hid]
    exact List.mem_map_of_mem _ hs
  have hcard :
      ((clean_sales df validC validP today).map (fun r => r.sale_id)).length
        ≤ (df.map (fun r => r.sale_id)).length := by
    have h1 := List.toFinset_card_of_nodup hnodup
    have h2 : ((clean_sales df validC validP today).map
        (fun r => r.sale_id)).toFinset
        ⊆ (df.map (fun r => r.sale_id)).toFinset := by
      intro x hx
      rw [List.mem_toFinset] at hx ⊢
      exact hsubset hx
    have h3 := Finset.card_le_card h2
    have h4 := List.toFinset_card_le (df.map (fun r => r.sale_id))
    omega
  rw [List.length_map, List.length_map] at hcard
  exact hcard

/-- Witness for C10 at a concrete one-row input. -/
theorem clean_sales_frame_witness :
    ∃ s ∈ [saleQtyTwo],
      saleQtyTwo.sale_id = s.sale_id ∧ saleQtyTwo.customer_id = s.customer_id
      ∧ saleQtyTwo.product_id = s.product_id ∧ saleQtyTwo.quantity = s.quantity
      ∧ saleQtyTwo.payment_method = s.payment_method
      ∧ saleQtyTwo.status = s.status ∧ saleQtyTwo.date = s.date
      ∧ saleQtyTwo.discount_percent = clampDiscount s.discount_percent :=
  (clean_sales_frame [saleQtyTwo] oneCust oneProd 10).1 saleQtyTwo (by decide)

theorem mem_leftJoinUnitPrice {prods : List RawProduct} :
    ∀ {sales : List RawSale} {x : RawSale × Option ℚ},
      x ∈ leftJoinUnitPrice sales prods →
        x.1 ∈ sales ∧
          ((x.2 = none ∧ ∀ p ∈ prods, p.product_id ≠ x.1.product_id)
            ∨ ∃ p ∈ prods, p.product_id = x.1.product_id
                ∧ x.2 = some p.unit_price) := by
  intro sales
  induction sales with
  | nil => intro x h; cases h
  | cons s rest ih =>
    intro x h
    rcases List.mem_append.1 h with h1 | h2
    · by_cases he : (prods.filter (fun p => p.product_id = s.product_id)).isEmpty
      · rw [if_pos he] at h1
        rcases List.mem_singleton.1 h1 with rfl
        refine ⟨List.mem_cons_self s rest, Or.inl ⟨rfl, ?_⟩⟩
        intro p hp hpid
        have hempty : prods.filter (fun p => p.product_id = s.product_id) = [] :=
          List.isEmpty_iff.1 he
        have : p ∈ prods.filter (fun p => p.product_id = s.product_id) :=
          List.mem_filter.2 ⟨hp, decide_eq_true hpid⟩
        rw [hempty] at this
        cases this
      · rw [if_neg he] at h1
        rcases List.mem_map.1 h1 with ⟨p, hp, rfl⟩
        rcases List.mem_filter.1 hp with ⟨hpp, hpc⟩
        exact ⟨List.mem_cons_self s rest,
          Or.inr ⟨p, hpp, of_decide_eq_true hpc, rfl⟩⟩
    · rcases ih h2 with ⟨hx1, hcase⟩
      exact ⟨List.mem_cons_of_mem s hx1, hcase⟩

/-- C1: each fact row satisfies exactly the three defining equations of the
derived metrics; and under the upstream guarantees of the cleaned inputs --
positive quantities, discounts within zero and one hundred, positive unit
prices, every sale product_id present among the products -- the metrics are
non-null with zero at most discount_amount at most amount_before_discount
and non-negative total_amount. -/
theorem fact_sales_metrics (sales : List RawSale) (prods : List RawProduct)
    (hq : ∀ s ∈ sales, 0 < s.quantity)
    (hdp : ∀ s ∈ sales, 0 ≤ s.discount_percent ∧ s.discount_percent ≤ 100)
    (hup : ∀ p ∈ prods, 0 < p.unit_price)
    (hcov : ∀ s ∈ sales, ∃ p ∈ prods, p.product_id = s.product_id) :
    ∀ f ∈ factSales sales prods,
      f.amount_before_discount = optMul (some ((f.quantity : ℚ))) f.unit_price
      ∧ f.discount_amount
          = optMul f.amount_before_discount (some (f.discount_percent / 100))
      ∧ f.total_amount = optSub f.amount_before_discount f.discount_amount
      ∧ ∃ a d t, f.amount_before_discount = some a ∧ f.discount_amount = some d
          ∧ f.total_amount = some t ∧ 0 ≤ d ∧ d ≤ a ∧ 0 ≤ t := by
  intro f hf
  rcases List.mem_map.1 hf with ⟨x, hx, rfl⟩
  rcases x with ⟨s, up⟩
  rcases mem_leftJoinUnitPrice hx with ⟨hs, hcase⟩
  rcases hcase with ⟨hnone, hnomatch⟩ | ⟨p, hp, hpid, hup2⟩
  · rcases hcov s hs with ⟨p, hp, hpid⟩
    exact absurd hpid (hnomatch p hp)
  · subst hup2
    refine ⟨rfl, rfl, rfl, ?_⟩
    have hq1 : (0 : ℚ) < ((s.quantity : ℚ)) :=
      Int.cast_pos.mpr (hq s hs)
    have hu1 : (0 : ℚ) < p.unit_price := hup p hp
    have ha : (0 : ℚ) < (s.quantity : ℚ) * p.unit_price := mul_pos hq1 hu1
    have hdp1 := (hdp s hs).1
    have hdp2 := (hdp s hs).2
    have hfrac0 : (0 : ℚ) ≤ s.discount_percent / 100 :=
      div_nonneg hdp1 (by norm_num)
    have hfrac1 : s.discount_percent / 100 ≤ 1 :=
      (div_le_one (by norm_num)).mpr hdp2
    refine ⟨(s.quantity : ℚ) * p.unit_price,
      (s.quantity : ℚ) * p.unit_price * (s.discount_percent / 100),
      (s.quantity : ℚ) * p.unit_price
        - (s.quantity : ℚ) * p.unit_price * (s.discount_percent / 100),
      rfl, rfl, rfl, ?_, ?_, ?_⟩
    · exact mul_nonneg ha.le hfrac0
    · calc (s.quantity : ℚ) * p.unit_price * (s.discount_percent / 100)
          ≤ (s.quantity : ℚ) * p.unit_price * 1 :=
            mul_le_mul_of_nonneg_left hfrac1 ha.le
        _ = (s.quantity : ℚ) * p.unit_price := mul_one _
    · have hd_le : (s.quantity : ℚ) * p.unit_price * (s.discount_percent / 100)
          ≤ (s.quantity : ℚ) * p.unit_price := by
        calc (s.quantity : ℚ) * p.unit_price * (s.discount_percent / 100)
            ≤ (s.quantity : ℚ) * p.unit_price * 1 :=
              mul_le_mul_of_nonneg_left hfrac1 ha.le
          _ = (s.quantity : ℚ) * p.unit_price := mul_one _
      exact sub_nonneg.mpr hd_le

/-- Witness for C1 at a one-sale one-product input. -/
theorem fact_sales_metrics_witness :
    factW.amount_before_discount
        = optMul (some ((factW.quantity : ℚ))) factW.unit_price
    ∧ factW.discount_amount
        = optMul factW.amount_before_discount (some (factW.discount_percent / 100))
    ∧ factW.total_amount = optSub factW.amount_before_discount factW.discount_amount
    ∧ ∃ a d t, factW.amount_before_discount = some a
        ∧ factW.discount_amount = some d ∧ factW.total_amount = some t
        ∧ 0 ≤ d ∧ d ≤ a ∧ 0 ≤ t :=
  fact_sales_metrics [saleQtyTwo] oneProd (by decide) (by decide) (by decide)
    (by decide) factW (List.mem_singleton.mpr rfl)

/-- C7: when every product_id of the cleaned sales resolves to exactly one
row of the cleaned products, the left join create_star_schema performs
coincides with the inner join row for row (every unit_price is non-null)
and neither duplicates nor drops a sale row. -/
theorem left_join_equals_inner_join (sales : List RawSale)
    (prods : List RawProduct)
    (h : ∀ s ∈ sales,
        (prods.filter (fun p => p.product_id = s.product_id)).length = 1) :
    leftJoinUnitPrice sales prods
        = (innerJoinUnitPrice sales prods).map (fun x => (x.1, some x.2))
    ∧ (leftJoinUnitPrice sales prods).length = sales.length := by
  induction sales with
  | nil => exact ⟨rfl, rfl⟩
  | cons s rest ih =>
    have hs := h s (List.mem_cons_self s rest)
    have hrest := ih (fun t ht => h t (List.mem_cons_of_mem s ht))
    rcases List.length_eq_one.1 hs with ⟨p, hp⟩
    have hne : (prods.filter (fun q => q.product_id = s.product_id)).isEmpty
        = false := by rw [hp]; rfl
    constructor
    · show (if (prods.filter (fun q => q.product_id = s.product_id)).isEmpty
          then [(s, (none : Option ℚ))]
          else (prods.filter (fun q => q.product_id = s.product_id)).map
            (fun q => (s, some q.unit_price)))
          ++ leftJoinUnitPrice rest prods = _
      rw [hne]
      show _ = ((prods.filter (fun q => q.product_id = s.product_id)).map
            (fun q => (s, q.unit_price))
          ++ innerJoinUnitPrice rest prods).map (fun x => (x.1, some x.2))
      rw [List.map_append, List.map_map, hrest.1, hp]
      rfl
    · show ((if (prods.filter (fun q => q.product_id = s.product_id)).isEmpty
          then [(s, (none : Option ℚ))]
          else (prods.filter (fun q => q.product_id = s.product_id)).map
            (fun q => (s, some q.unit_price)))
          ++ leftJoinUnitPrice rest prods).length = _
      rw [hp]
      show (([p].map (fun q => (s, some q.unit_price)))
          ++ leftJoinUnitPrice rest prods).length = (s :: rest).length
      rw [List.length_append, List.length_map, hrest.2]
      simp [Nat.add_comm]

/-- Witness for C7 at a one-sale one-product input. -/
theorem left_join_equals_inner_join_witness :
    leftJoinUnitPrice [saleQtyTwo] oneProd
        = (innerJoinUnitPrice [saleQtyTwo] oneProd).map (fun x => (x.1, some x.2))
    ∧ (leftJoinUnitPrice [saleQtyTwo] oneProd).length = [saleQtyTwo].length :=
  left_join_equals_inner_join [saleQtyTwo] oneProd (by decide)

/-- C8: the pipeline is a pure function of the three raw input tables and
the observed clock value, so two runs over equal raw inputs with the same
injected processing date produce the same three output tables, in
particular the same multisets of rows.  (Within this model the incidental
row order is the input file order; the engine-level tie nondeterminism of
the sale deduplication is covered by the C6 theorems.) -/
theorem pipeline_runs_agree (rawC1 rawC2 : List RawCustomer)
    (rawP1 rawP2 : List RawProduct) (rawS1 rawS2 : List RawSale)
    (t1 t2 : Int) (hc : rawC1 = rawC2) (hp : rawP1 = rawP2)
    (hs : rawS1 = rawS2) (ht : t1 = t2) :
    ((runPipeline rawC1 rawP1 rawS1 t1).1 : Multiset FactSale)
        = ((runPipeline rawC2 rawP2 rawS2 t2).1 : Multiset FactSale)
    ∧ ((runPipeline rawC1 rawP1 rawS1 t1).2.1 : Multiset DimCustomer)
        = ((runPipeline rawC2 rawP2 rawS2 t2).2.1 : Multiset DimCustomer)
    ∧ ((runPipeline rawC1 rawP1 rawS1 t1).2.2 : Multiset DimProduct)
        = ((runPipeline rawC2 rawP2 rawS2 t2).2.2 : Multiset DimProduct) := by
  subst hc
  subst hp
  subst hs
  subst ht
  exact ⟨rfl, rfl, rfl⟩

/-- Witness for C8 at a concrete three-table input. -/
theorem pipeline_runs_agree_witness :
    ((runPipeline [custNine, custFive] [prodHomeOne] [saleQtyTwo] 10).1
        : Multiset FactSale)
      = ((runPipeline [custNine, custFive] [prodHomeOne] [saleQtyTwo] 10).1
        : Multiset FactSale)
    ∧ ((runPipeline [custNine, custFive] [prodHomeOne] [saleQtyTwo] 10).2.1
        : Multiset DimCustomer)
      = ((runPipeline [custNine, custFive] [prodHomeOne] [saleQtyTwo] 10).2.1
        : Multiset DimCustomer)
    ∧ ((runPipeline [custNine, custFive] [prodHomeOne] [saleQtyTwo] 10).2.2
        : Multiset DimProduct)
      = ((runPipeline [custNine, custFive] [prodHomeOne] [saleQtyTwo] 10).2.2
        : Multiset DimProduct) :=
  pipeline_runs_agree [custNine, custFive] [custNine, custFive]
    [prodHomeOne] [prodHomeOne] [saleQtyTwo] [saleQtyTwo] 10 10 rfl rfl rfl rfl

/-- C9 counterexample: a run whose second write (dim_product) fails aborts,
yet the sink already holds the committed dim_customer output and neither of
the other two tables: the sink is neither empty nor complete, so the
all-or-nothing property fails at the write phase. -/
theorem run_main_partial_commit :
    (runMain true [custNine] [prodHomeOne] [saleQtyTwo] 10
        (fun i => decide (i.val = 1))).2 = false
    ∧ (runMain true [custNine] [prodHomeOne] [saleQtyTwo] 10
        (fun i => decide (i.val = 1))).1.dimCustomerOut.isSome = true
    ∧ (runMain true [custNine] [prodHomeOne] [saleQtyTwo] 10
        (fun i => decide (i.val = 1))).1.dimProductOut = none
    ∧ (runMain true [custNine] [prodHomeOne] [saleQtyTwo] 10
        (fun i => decide (i.val = 1))).1.factSalesOut = none
    ∧ (runMain true [custNine] [prodHomeOne] [saleQtyTwo] 10
        (fun i => decide (i.val = 1))).1 ≠ emptySink := by
  refine ⟨by decide, by decide, by decide, by decide, by decide⟩

/-- C9 amended: a failure before the writes (missing input or schema
mismatch at load) leaves the sink untouched, but the three writes commit
sequentially and independently: each output table is visible exactly when
the load and every earlier write succeeded, so a write failure aborts the
run while leaving the outputs already written visible (no all-or-nothing
commit across the three tables). -/
theorem run_main_write_visibility (loadOk : Bool) (rawC : List RawCustomer)
    (rawP : List RawProduct) (rawS : List RawSale) (today : Int)
    (fails : Fin 3 → Bool) :
    ((runMain loadOk rawC rawP rawS today fails).2 = true
        ↔ loadOk = true ∧ fails 0 = false ∧ fails 1 = false ∧ fails 2 = false)
    ∧ (runMain loadOk rawC rawP rawS today fails).1.dimCustomerOut
        = (if loadOk && !(fails 0) then
            some (runPipeline rawC rawP rawS today).2.1 else none)
    ∧ (runMain loadOk rawC rawP rawS today fails).1.dimProductOut
        = (if loadOk && !(fails 0) && !(fails 1) then
            some (runPipeline rawC rawP rawS today).2.2 else none)
    ∧ (runMain loadOk rawC rawP rawS today fails).1.factSalesOut
        = (if loadOk && !(fails 0) && !(fails 1) && !(fails 2) then
            some (runPipeline rawC rawP rawS today).1 else none) := by
  cases loadOk with
  | false => simp [runMain, emptySink]
  | true =>
    cases h0 : fails 0 with
    | true => simp [runMain, saveOutputs, emptySink, h0]
    | false =>
      cases h1 : fails 1 with
      | true => simp [runMain, saveOutputs, emptySink, h0, h1]
      | false =>
        cases h2 : fails 2 with
        | true => simp [runMain, saveOutputs, emptySink, h0, h1, h2]
        | false => simp [runMain, saveOutputs, emptySink, h0, h1, h2]

end SalesETL
